import Mathlib

/-!
Verification of the Powernap architect layer (`powernap/architect/blueprints.py`).

The development shallowly embeds the registration logic of the `Architect`
and `ResponseBlueprint` classes: Python dictionaries become association
lists with Python `dict` semantics (insertion order preserved, update in
place, `pop` with a default), view functions and decorators become symbolic
terms, and the mutable-dictionary aspect of `route_options` is modelled by
an explicit heap of dictionaries so that the deep-copy performed by the
source is visible in the model.
-/

set_option autoImplicit false

namespace Powernap

/-- A JSON-like value, the shape of `e.description` and of response bodies. -/
inductive JsonVal where
  | str (s : String)
  | num (n : Int)
  | arr (elems : List JsonVal)
  | dict (entries : List (String × JsonVal))

/-- An API exception as consumed by the error handler: a description and an
HTTP status code (`e.description`, `e.code`). -/
structure ApiErr where
  description : JsonVal
  code : Nat

/-- Embeds `api_error` from `powernap/architect/blueprints.py`: if the
description is a dict it is returned as the body unchanged, otherwise the
body is a dict with a single key `errors` holding the one-element list of
the description; the status code is `e.code`. -/
def api_error (e : ApiErr) : JsonVal × Nat :=
  let desc := e.description
  let content :=
    match desc with
    | JsonVal.dict _ => desc
    | _ => JsonVal.dict [("errors", JsonVal.arr [desc])]
  (content, e.code)

/-! ## Python dictionaries

Route options are Python dictionaries with string keys.  They are embedded
as association lists that keep insertion order, with the operations the
source uses: subscript read (`dictGet`), `d[k] = v` (`dictSet`),
`d.update(other)` (`dictUpdate`), `d.pop(k, None)` (`dictPop`, removing
the entry) and the underlying deletion (`dictDel`).  A Python dict never
holds two entries with the same key, so theorems about dictionaries may
assume `Nodup` keys. -/

/-- A Python value as it occurs in route option dictionaries. -/
inductive PyVal where
  | vnone
  | vbool (b : Bool)
  | vnat (n : Nat)
  | vstr (s : String)
  | vstrList (l : List String)
  deriving DecidableEq, Repr

/-- A Python dictionary with string keys, in insertion order. -/
abbrev Dict := List (String × PyVal)

/-- Python `d.get(k)` / `d[k]`: value of the first entry with key `k`. -/
def dictGet : Dict → String → Option PyVal
  | [], _ => none
  | (k1, v1) :: rest, k => if k1 = k then some v1 else dictGet rest k

/-- Python `d[k] = v`: replace the value of an existing key in place,
otherwise append the new entry at the end. -/
def dictSet : Dict → String → PyVal → Dict
  | [], k, v => [(k, v)]
  | (k1, v1) :: rest, k, v =>
    if k1 = k then (k1, v) :: rest else (k1, v1) :: dictSet rest k v

/-- Python `d.update(other)`: set every entry of `other` in `d`, in order. -/
def dictUpdate (d other : Dict) : Dict :=
  other.foldl (fun acc p => dictSet acc p.1 p.2) d

/-- Removal of the first entry with key `k` (helper of `dictPop`). -/
def dictDel : Dict → String → Dict
  | [], _ => []
  | (k1, v1) :: rest, k => if k1 = k then rest else (k1, v1) :: dictDel rest k

/-- Python `d.pop(k, None)`: return the stored value and remove the entry,
or return `None` leaving the dictionary unchanged. -/
def dictPop (d : Dict) (k : String) : PyVal × Dict :=
  match dictGet d k with
  | some v => (v, dictDel d k)
  | none => (PyVal.vnone, d)

/-! ## Views and the decorator chain of `ResponseBlueprint.route` -/

/-- A view function as a symbolic term: either the original function or a
decorator applied to an inner view, with the optional second argument the
decorator received. -/
inductive View where
  | base (name : String)
  | wrap (decoratorName : String) (arg : Option PyVal) (inner : View)
  deriving DecidableEq, Repr

/-- Embeds `ResponseBlueprint.route_options`: the per-route options are
merged into a deep copy of the blueprint default options (the copying
itself is modelled by `route_optionsH` on the heap below). -/
def route_options (default_options options : Dict) : Dict :=
  dictUpdate default_options options

/-- Embeds the `for decorator in self.decorators` loop inside
`ResponseBlueprint.route`: pop the decorator name from the options with
default `None`; call the decorator with the view alone when the popped
value is `None`, and with the value as second argument otherwise. -/
def applyDecorators : List String → Dict → View → View × Dict
  | [], opts, f => (f, opts)
  | d :: ds, opts, f =>
    let (v, rest) := dictPop opts d
    let f1 := if v = PyVal.vnone then View.wrap d none f
              else View.wrap d (some v) f
    applyDecorators ds rest f1

/-- Embeds the `default_route_options` property of `ResponseBlueprint`. -/
def default_route_options : Dict := [("strict_slashes", PyVal.vbool false)]

/-- Outcome of one `ResponseBlueprint.route` registration: the endpoint
name, the fully wrapped view and the keyword options handed to
`add_url_rule`. -/
structure RouteResult where
  endpoint : PyVal
  view : View
  addOptions : Dict
  deriving DecidableEq, Repr

/-- Embeds `ResponseBlueprint.route`: merge the options over the defaults,
pop the endpoint from the raw per-route options, thread the view through
the decorator chain, then overwrite with `default_route_options` and add
the rule. -/
def route (decorators : List String) (default_options : Dict)
    (options : Dict) (f : View) (fname : String) : RouteResult :=
  let ropts := route_options default_options options
  let endpoint := (dictGet options "endpoint").getD (PyVal.vstr fname)
  let (f1, ropts1) := applyDecorators decorators ropts f
  { endpoint := endpoint
    view := f1
    addOptions := dictUpdate ropts1 default_route_options }

/-! ## The CRUD generator -/

/-- A Python function object as `crudify` sees it: a `__name__` (mutable in
the source, so rebuilt functionally here) and the list of positional
argument names `inspect.getargspec` reports. -/
structure Handler where
  name : String
  args : List String
  deriving DecidableEq, Repr

/-- Embeds the local `get_func` of `crudify` (no positional arguments). -/
def get_func : Handler := { name := "get_func", args := [] }

/-- Embeds the local `get_one_func` of `crudify` (takes `id`). -/
def get_one_func : Handler := { name := "get_one_func", args := ["id"] }

/-- Embeds the local `post_func` of `crudify` (no positional arguments). -/
def post_func : Handler := { name := "post_func", args := [] }

/-- Embeds the local `put_func` of `crudify` (takes `id`). -/
def put_func : Handler := { name := "put_func", args := ["id"] }

/-- Embeds the local `delete_func` of `crudify` (takes `id`). -/
def delete_func : Handler := { name := "delete_func", args := ["id"] }

/-- Embeds Python `method.split(' ')[0]`: the prefix of the string up to
the first space character. -/
def splitSpaceHead (s : String) : String :=
  String.mk (s.data.takeWhile (· != ' '))

/-- Outcome of one `route_crudify_method` call: the URL handed to `route`,
the HTTP methods list, the renamed handler and the `needs_permission`
value passed into the route options. -/
structure CrudRoute where
  url : String
  httpMethods : List String
  handler : Handler
  needsPermission : PyVal
  deriving DecidableEq, Repr

/-- Embeds `ResponseBlueprint.route_crudify_method`: rename the handler to
`method_modelname`, look up the permission for the method (`None` when
absent), append `/<int:id>` to the URL exactly when the handler has
positional arguments, and register under the first space-separated word of
the method. -/
def route_crudify_method (url modelName method : String) (func : Handler)
    (needs_permission : Dict) : CrudRoute :=
  let func := { func with name := method ++ "_" ++ modelName }
  let np := (dictGet needs_permission method).getD PyVal.vnone
  let method_url := if func.args.isEmpty then url else url ++ "/<int:id>"
  { url := method_url
    httpMethods := [splitSpaceHead method]
    handler := func
    needsPermission := np }

/-- The five crudify methods, in the order of the `funcs` tuple of
`ResponseBlueprint.crudify`. -/
def crudMethods : List String := ["GET", "GET ONE", "POST", "PUT", "DELETE"]

/-- Embeds the `funcs` tuple of `ResponseBlueprint.crudify`: for each
method, the entry of the blueprint `crudify_funcs` dictionary if it holds
a function (`self.crudify_funcs.get(m) or default`), otherwise the generic
local function. -/
def crudifyFuncsList (cf : List (String × Option Handler)) :
    List (String × Handler) :=
  [("GET", ((cf.lookup "GET").join).getD get_func),
   ("GET ONE", ((cf.lookup "GET ONE").join).getD get_one_func),
   ("POST", ((cf.lookup "POST").join).getD post_func),
   ("PUT", ((cf.lookup "PUT").join).getD put_func),
   ("DELETE", ((cf.lookup "DELETE").join).getD delete_func)]

/-- Embeds the registration loop of `ResponseBlueprint.crudify`: every
method of the `funcs` tuple not listed in `ignore` is routed through
`route_crudify_method`; the result pairs each routed crudify method with
its registered route. -/
def crudify (cf : List (String × Option Handler)) (url modelName : String)
    (ignore : List String) (needs_permission : Dict) :
    List (String × CrudRoute) :=
  (crudifyFuncsList cf).filterMap fun p =>
    if p.1 ∈ ignore then none
    else some (p.1, route_crudify_method url modelName p.1 p.2 needs_permission)

/-! ## The `Architect` -/

/-- A request-loader function for the login manager: either the
user-supplied `user_loader` or `user_from_redis_token_wrapper(user_class)`
built from the user class. -/
inductive Loader where
  | custom (id : Nat)
  | userFromRedisToken (userClass : Nat)
  deriving DecidableEq, Repr

/-- The loader actually installed on the login manager, always wrapped by
`request_user_wrapper`. -/
inductive RequestLoader where
  | requestUserWrapper (inner : Loader)
  deriving DecidableEq, Repr

/-- The slice of a `flask_login.LoginManager` the source touches: the hook
set by `login_manager.request_loader(...)`. -/
structure LoginManager where
  requestLoaderHook : Option RequestLoader
  deriving DecidableEq, Repr

/-- The name of `powernap.auth.rate_limit.check_rate_limit`, the default
before-request function. -/
def check_rate_limit : String := "check_rate_limit"

/-- The keys of the `crudify_funcs` dictionary built by
`Architect.__init__`, in source order. -/
def architectCrudifyKeys : List String :=
  ["GET", "GET ONE", "PUT", "POST", "DELETE"]

/-- Embeds the dict comprehension of `Architect.__init__`: the supplied
`crudify_funcs` dictionary is restricted to the five crudify keys, each
mapped to `crudify_funcs.get(k)` (so missing keys map to `None`). -/
def architectCrudifyFuncs (input : List (String × Handler)) :
    List (String × Option Handler) :=
  architectCrudifyKeys.map fun k => (k, input.lookup k)

/-- Embeds `Architect._init_login_manager`: raise unless `user_loader` or
`user_class` is given; otherwise install
`request_user_wrapper(user_loader or user_from_redis_token_wrapper(user_class))`
on the login manager. -/
def init_login_manager (user_loader : Option Loader)
    (user_class : Option Nat) : Except String LoginManager :=
  if user_loader.isNone && user_class.isNone then
    Except.error "Define either the user_loader or user_class kwarg."
  else
    let ul := match user_loader with
      | some l => l
      | none => Loader.userFromRedisToken (user_class.getD 0)
    Except.ok { requestLoaderHook := some (RequestLoader.requestUserWrapper ul) }

/-- The attributes of `Architect` the claims touch, after `__init__`. -/
structure ArchitectState where
  version : Nat
  decorators : List String
  crudify_funcs : List (String × Option Handler)
  login_manager : LoginManager
  before_request_funcs : List String
  after_request_funcs : List String
  deriving DecidableEq, Repr

/-- Embeds `Architect.__init__` on the claim-relevant parameters.  The
`decorators` parameter defaults to `None` in the source and is iterated by
`_load_decorators`, so `None` raises a `TypeError`; the decorators
themselves are kept as their names.  The empty `before_request_funcs` list
is falsy, so `before_request_funcs or [check_rate_limit]` installs the
rate-limit check. -/
def architectInit (version : Nat) (decorators : Option (List String))
    (crudify_funcs : List (String × Handler)) (user_loader : Option Loader)
    (user_class : Option Nat)
    (before_request_funcs after_request_funcs : List String) :
    Except String ArchitectState :=
  match decorators with
  | none => Except.error "TypeError: NoneType object is not iterable"
  | some ds =>
    match init_login_manager user_loader user_class with
    | Except.error e => Except.error e
    | Except.ok lm =>
      Except.ok
        { version := version
          decorators := ds
          crudify_funcs := architectCrudifyFuncs crudify_funcs
          login_manager := lm
          before_request_funcs :=
            if before_request_funcs.isEmpty then [check_rate_limit]
            else before_request_funcs
          after_request_funcs := after_request_funcs }

/-- Embeds the attribute-assignment order of `Architect.__init__`: the
names of the attributes assigned before `__init__` returns or raises, in
source order, together with the raised exception if any.
`self.blueprints`, `self.version` and `self._prefix` are assigned before
`_load_decorators(decorators)` runs (which raises a `TypeError` on the
default `None`), the next six attributes are assigned before
`_init_login_manager` checks its arguments, and the last three only after
that check passes. -/
def architectInitAssigned (decorators : Option (List String))
    (user_loader : Option Loader) (user_class : Option Nat) :
    List String × Option String :=
  let assigned := ["blueprints", "version", "_prefix"]
  match decorators with
  | none => (assigned, some "TypeError: NoneType object is not iterable")
  | some _ =>
    let assigned := assigned ++
      ["decorators", "base_dir", "template_dir", "name",
       "response_blueprint", "crudify_funcs"]
    if user_loader.isNone && user_class.isNone then
      (assigned, some "Define either the user_loader or user_class kwarg.")
    else
      (assigned ++
        ["login_manager", "api_encoder", "before_request_funcs",
         "after_request_funcs"], none)

/-- The attributes of a `ResponseBlueprint` the claims touch. -/
structure BlueprintState where
  name : String
  crudify_funcs : List (String × Option Handler)
  default_options : Dict
  before_request_funcs : List String
  after_request_funcs : List String
  deriving DecidableEq, Repr

/-- Embeds `Architect.sub_blueprint`: the kwargs whose keys are decorator
names become the blueprint `default_options`, the architect
`crudify_funcs` are handed down, and every function of the architect
`before_request_funcs` and `after_request_funcs` lists is registered on
the new blueprint. -/
def sub_blueprint (a : ArchitectState) (nm : String) (kwargs : Dict) :
    BlueprintState :=
  { name := nm
    crudify_funcs := a.crudify_funcs
    default_options := a.decorators.filterMap fun k =>
      (dictGet kwargs k).map fun v => (k, v)
    before_request_funcs := a.before_request_funcs
    after_request_funcs := a.after_request_funcs }

/-! ## Heap model of the route options

`ResponseBlueprint.route_options` deep-copies the blueprint
`default_options` dictionary before merging the per-route options, and the
decorator loop then pops keys from the merged dictionary in place.  To
state that the default options are never mutated, dictionaries live in an
explicit heap: a store of dictionaries addressed by allocation index. -/

/-- A heap of Python dictionaries. -/
structure Store where
  dicts : List Dict
  deriving DecidableEq, Repr

/-- Dereference a dictionary in the store. -/
def Store.read (s : Store) (r : Nat) : Dict := s.dicts.getD r []

/-- Allocate a fresh dictionary, returning its reference. -/
def Store.alloc (s : Store) (d : Dict) : Store × Nat :=
  ({ dicts := s.dicts ++ [d] }, s.dicts.length)

/-- Overwrite the dictionary at an existing reference. -/
def Store.write (s : Store) (r : Nat) (d : Dict) : Store :=
  { dicts := s.dicts.set r d }

/-- Embeds `ResponseBlueprint.route_options` on the heap:
`complete = deepcopy(self.default_options)` allocates a fresh dictionary
with the same entries, and `complete.update(options)` mutates only that
fresh dictionary. -/
def route_optionsH (s : Store) (defRef : Nat) (options : Dict) :
    Store × Nat :=
  let (s1, r) := s.alloc (s.read defRef)
  let s2 := s1.write r (dictUpdate (s1.read r) options)
  (s2, r)

/-- The decorator loop of `ResponseBlueprint.route` on the heap: each
`route_options.pop(...)` mutates the merged dictionary at `r` in place. -/
def applyDecoratorsH : List String → Store → Nat → View → Store × View
  | [], s, _, f => (s, f)
  | d :: ds, s, r, f =>
    let (v, rest) := dictPop (s.read r) d
    let s1 := s.write r rest
    let f1 := if v = PyVal.vnone then View.wrap d none f
              else View.wrap d (some v) f
    applyDecoratorsH ds s1 r f1

/-- Embeds one `ResponseBlueprint.route` registration on the heap: build
the merged options in a fresh dictionary, run the decorator loop on it,
then `route_options.update(self.default_route_options)` before
`add_url_rule`. -/
def routeH (s : Store) (defRef : Nat) (decorators : List String)
    (options : Dict) (f : View) : Store × View :=
  let (s1, r) := route_optionsH s defRef options
  let (s2, f2) := applyDecoratorsH decorators s1 r f
  let s3 := s2.write r (dictUpdate (s2.read r) default_route_options)
  (s3, f2)

/-- A sequence of `route` registrations against the same blueprint (the
same `default_options` reference). -/
def routeSeqH (defRef : Nat) (decorators : List String) :
    List (Dict × View) → Store → Store
  | [], s => s
  | (o, f) :: rest, s =>
    routeSeqH defRef decorators rest (routeH s defRef decorators o f).1

/-! ## The permission decorator

`powernap/decorators.py` itself is not part of the sources; only its test
suite is.  The decorator is therefore modelled from the spec. -/

/-- The current user as the permission decorator sees it. -/
structure CurrentUser where
  is_admin : Bool
  permissions : List String
  deriving DecidableEq, Repr

/-- Result of calling a decorated view: the underlying view was invoked,
or a typed error was raised. -/
inductive CallOutcome where
  | forwarded (viewName : String)
  | permissionError
  deriving DecidableEq, Repr

/-- Modelled from the spec: `powernap/decorators.py` is missing from the
sources, so the `permission` decorator is taken from the spec sentence
"each layer checking one precondition (authentication, permission, public
access, rate limit) against the incoming request/session and either
forwarding the call or raising a typed error" and from the behaviour its
test suite `src/tests/decorators/test_decorator_permission.py` describes:
with no required permission the call is forwarded; with a required
permission the call is forwarded when the current user has the permission
or is an admin, and a `PermissionError` is raised otherwise. -/
def permission (fname : String) (required : Option String)
    (u : CurrentUser) : CallOutcome :=
  match required with
  | none => CallOutcome.forwarded fname
  | some p =>
    if u.permissions.contains p || u.is_admin then CallOutcome.forwarded fname
    else CallOutcome.permissionError

/-! ## Specification-side definitions

These restate parts of the claims in a form independent of the sequential
pops and mutation of the source, to be compared with the embedded code. -/

/-- Specification-side view of the second decorator argument: the value of
the decorator key in the merged options, turned into no argument when it
is absent or `None`. -/
def decoratorArg (o : Dict) (d : String) : Option PyVal :=
  match dictGet o d with
  | some v => if v = PyVal.vnone then none else some v
  | none => none

/-- Specification-side choice of the generic default function per crudify
method. -/
def defaultFunc : String → Handler
  | "GET ONE" => get_one_func
  | "POST" => post_func
  | "PUT" => put_func
  | "DELETE" => delete_func
  | _ => get_func

/-- An exception whose description is a dictionary, as the dict branch of
`api_error` expects. -/
def dictDescErr : ApiErr :=
  { description := JsonVal.dict [("detail", JsonVal.str "over limit")]
    code := 429 }

end Powernap

namespace Powernap

/-! ## Dictionary lemmas -/

theorem dictGet_set_self (d : Dict) (k : String) (v : PyVal) :
    dictGet (dictSet d k v) k = some v := by
  induction d with
  | nil => simp [dictSet, dictGet]
  | cons p t ih =>
    by_cases h : p.1 = k
    · simp [dictSet, h, dictGet]
    · simp [dictSet, h, dictGet, ih]

theorem dictGet_set_ne (d : Dict) (k1 k : String) (v : PyVal) (h : k1 ≠ k) :
    dictGet (dictSet d k1 v) k = dictGet d k := by
  induction d with
  | nil => simp [dictSet, dictGet, h]
  | cons p t ih =>
    by_cases h1 : p.1 = k1
    · simp [dictSet, h1, dictGet, h]
    · simp [dictSet, h1, dictGet, ih]

theorem dictGet_eq_none_of_not_mem (d : Dict) (k : String)
    (h : k ∉ d.map Prod.fst) : dictGet d k = none := by
  induction d with
  | nil => rfl
  | cons p t ih =>
    simp only [List.map_cons, List.mem_cons, not_or] at h
    simp [dictGet, Ne.symm h.1, ih h.2]

theorem dictGet_update (d o : Dict) (k : String)
    (h : (o.map Prod.fst).Nodup) :
    dictGet (dictUpdate d o) k =
      match dictGet o k with
      | some v => some v
      | none => dictGet d k := by
  induction o generalizing d with
  | nil => simp [dictUpdate, dictGet]
  | cons p t ih =>
    simp only [List.map_cons, List.nodup_cons] at h
    have step : dictUpdate d (p :: t) = dictUpdate (dictSet d p.1 p.2) t := rfl
    rw [step, ih _ h.2]
    by_cases hk : p.1 = k
    · subst hk
      rw [dictGet_eq_none_of_not_mem t p.1 h.1]
      simp [dictGet, dictGet_set_self]
    · simp [dictGet, hk, dictGet_set_ne _ _ _ _ hk]

theorem dictDel_of_get_none (d : Dict) (k : String) (h : dictGet d k = none) :
    dictDel d k = d := by
  induction d with
  | nil => rfl
  | cons p t ih =>
    by_cases hk : p.1 = k
    · simp [dictGet, hk] at h
    · simp only [dictGet, hk, if_neg hk] at h
      simp [dictDel, hk, ih h]

theorem dictPop_eq (d : Dict) (k : String) :
    dictPop d k = ((dictGet d k).getD PyVal.vnone, dictDel d k) := by
  unfold dictPop
  cases h : dictGet d k with
  | some v => simp
  | none => simp [dictDel_of_get_none d k h]

theorem dictGet_del_ne (d : Dict) (k1 k : String) (h : k1 ≠ k) :
    dictGet (dictDel d k1) k = dictGet d k := by
  induction d with
  | nil => rfl
  | cons p t ih =>
    by_cases hk : p.1 = k1
    · simp [dictDel, hk, dictGet, h]
    · simp [dictDel, hk, dictGet, ih]

theorem dictDel_eq_filter (d : Dict) (k : String)
    (h : (d.map Prod.fst).Nodup) :
    dictDel d k = d.filter fun p => decide (p.1 ≠ k) := by
  induction d with
  | nil => rfl
  | cons p t ih =>
    simp only [List.map_cons, List.nodup_cons] at h
    by_cases hk : p.1 = k
    · subst hk
      have hfe : t.filter (fun q => !decide (q.1 = p.1)) = t := by
        apply List.filter_eq_self.mpr
        intro q hq
        simp only [Bool.not_eq_true', decide_eq_false_iff_not]
        intro hq1
        exact h.1 (hq1 ▸ List.mem_map_of_mem Prod.fst hq)
      simp [dictDel, hfe]
    · simp [dictDel, hk, ih h.2]

theorem dictDel_keys_sublist (d : Dict) (k : String) :
    ((dictDel d k).map Prod.fst).Sublist (d.map Prod.fst) := by
  induction d with
  | nil => exact List.Sublist.refl _
  | cons p t ih =>
    obtain ⟨k1, v1⟩ := p
    by_cases hk : k1 = k
    · simp only [dictDel, if_pos hk, List.map_cons]
      exact List.sublist_cons_self _ _
    · simp only [dictDel, if_neg hk, List.map_cons]
      exact List.Sublist.cons₂ _ ih

theorem dictDel_keys_nodup (d : Dict) (k : String)
    (h : (d.map Prod.fst).Nodup) : ((dictDel d k).map Prod.fst).Nodup :=
  (dictDel_keys_sublist d k).nodup h

/-! ## Decorator-chain lemmas -/

theorem foldl_congr_mem {α β : Type} (l : List α) (f g : β → α → β) (b : β)
    (h : ∀ a ∈ l, ∀ acc, f acc a = g acc a) : l.foldl f b = l.foldl g b := by
  induction l generalizing b with
  | nil => rfl
  | cons x t ih =>
    simp only [List.foldl_cons]
    rw [h x (List.mem_cons_self x t) b]
    exact ih _ (fun a ha acc => h a (List.mem_cons_of_mem x ha) acc)

theorem decoratorArg_del_ne (o : Dict) (d d1 : String) (h : d1 ≠ d) :
    decoratorArg (dictDel o d1) d = decoratorArg o d := by
  unfold decoratorArg
  rw [dictGet_del_ne o d1 d h]

theorem applyDecorators_eq (ds : List String) :
    ∀ (opts : Dict) (f : View), ds.Nodup → (opts.map Prod.fst).Nodup →
    applyDecorators ds opts f =
      (ds.foldl (fun g d => View.wrap d (decoratorArg opts d) g) f,
       opts.filter fun p => decide (p.1 ∉ ds)) := by
  induction ds with
  | nil =>
    intro opts f _ _
    simp [applyDecorators]
  | cons d t ih =>
    intro opts f hds hopts
    simp only [List.nodup_cons] at hds
    have hwrap :
        (if (dictGet opts d).getD PyVal.vnone = PyVal.vnone then
            View.wrap d none f
         else View.wrap d (some ((dictGet opts d).getD PyVal.vnone)) f)
          = View.wrap d (decoratorArg opts d) f := by
      unfold decoratorArg
      cases hv : dictGet opts d with
      | none => simp
      | some v =>
        by_cases h0 : v = PyVal.vnone <;> simp [h0]
    have hstep : applyDecorators (d :: t) opts f =
        applyDecorators t (dictDel opts d) (View.wrap d (decoratorArg opts d) f) := by
      simp only [applyDecorators, dictPop_eq]
      rw [hwrap]
    rw [hstep,
      ih (dictDel opts d) (View.wrap d (decoratorArg opts d) f) hds.2
        (dictDel_keys_nodup opts d hopts)]
    have hview :
        t.foldl (fun g d1 => View.wrap d1 (decoratorArg (dictDel opts d) d1) g)
            (View.wrap d (decoratorArg opts d) f)
          = t.foldl (fun g d1 => View.wrap d1 (decoratorArg opts d1) g)
            (View.wrap d (decoratorArg opts d) f) := by
      apply foldl_congr_mem
      intro a ha acc
      rw [decoratorArg_del_ne opts a d (fun h => hds.1 (h ▸ ha))]
    have hfilter :
        (dictDel opts d).filter (fun p => decide (p.1 ∉ t))
          = opts.filter fun p => decide (p.1 ∉ d :: t) := by
      rw [dictDel_eq_filter opts d hopts, List.filter_filter]
      apply List.filter_congr
      intro a _
      simp [List.mem_cons, not_or, Bool.and_comm]
    rw [hview, hfilter]
    simp [List.foldl_cons]

/-! ## Heap lemmas -/

theorem store_read_alloc (s : Store) (d : Dict) (r : Nat)
    (h : r < s.dicts.length) : (s.alloc d).1.read r = s.read r := by
  unfold Store.alloc Store.read
  exact List.getD_append _ _ _ _ h

theorem store_read_write_ne (s : Store) (r1 r : Nat) (d : Dict)
    (h : r1 ≠ r) : (s.write r1 d).read r = s.read r := by
  unfold Store.write Store.read
  rw [List.getD_eq_getD_get?, List.getD_eq_getD_get?]
  rw [List.get?_eq_getElem?, List.get?_eq_getElem?]
  rw [List.getElem?_set_ne h]

theorem store_length_write (s : Store) (r : Nat) (d : Dict) :
    (s.write r d).dicts.length = s.dicts.length := by
  unfold Store.write
  exact List.length_set _ _ _

theorem applyDecoratorsH_read_ne (ds : List String) :
    ∀ (s : Store) (r : Nat) (f : View) (r1 : Nat), r1 ≠ r →
    ((applyDecoratorsH ds s r f).1).read r1 = s.read r1 := by
  induction ds with
  | nil => intro s r f r1 _; rfl
  | cons d t ih =>
    intro s r f r1 h
    simp only [applyDecoratorsH]
    rw [ih _ _ _ _ h, store_read_write_ne _ _ _ _ (fun he => h he.symm)]

theorem applyDecoratorsH_length (ds : List String) :
    ∀ (s : Store) (r : Nat) (f : View),
    ((applyDecoratorsH ds s r f).1).dicts.length = s.dicts.length := by
  induction ds with
  | nil => intro s r f; rfl
  | cons d t ih =>
    intro s r f
    simp only [applyDecoratorsH]
    rw [ih, store_length_write]

theorem routeH_read (s : Store) (defRef : Nat) (ds : List String)
    (o : Dict) (f : View) (h : defRef < s.dicts.length) :
    ((routeH s defRef ds o f).1).read defRef = s.read defRef := by
  have hne : defRef ≠ s.dicts.length := Nat.ne_of_lt h
  unfold routeH route_optionsH
  simp only [Store.alloc]
  rw [store_read_write_ne _ _ _ _ (fun he => hne he.symm)]
  rw [applyDecoratorsH_read_ne _ _ _ _ _ hne]
  rw [store_read_write_ne _ _ _ _ (fun he => hne he.symm)]
  exact List.getD_append _ _ _ _ h

theorem routeH_length (s : Store) (defRef : Nat) (ds : List String)
    (o : Dict) (f : View) :
    ((routeH s defRef ds o f).1).dicts.length = s.dicts.length + 1 := by
  unfold routeH route_optionsH
  simp only [Store.alloc]
  rw [store_length_write, applyDecoratorsH_length, store_length_write]
  simp [Store.write]

theorem routeSeqH_read (regs : List (Dict × View)) :
    ∀ (s : Store) (defRef : Nat) (ds : List String),
    defRef < s.dicts.length →
    (routeSeqH defRef ds regs s).read defRef = s.read defRef := by
  induction regs with
  | nil => intro s defRef ds _; rfl
  | cons r t ih =>
    intro s defRef ds h
    obtain ⟨o, f⟩ := r
    simp only [routeSeqH]
    rw [ih _ _ _ (by rw [routeH_length]; omega)]
    exact routeH_read s defRef ds o f h

/-! ## CRUD generator lemmas -/

theorem filterMap_ignore_map_fst (ignore : List String)
    (g : String × Handler → CrudRoute) :
    ∀ l : List (String × Handler),
      ((l.filterMap fun p =>
          if p.1 ∈ ignore then none else some (p.1, g p)).map Prod.fst)
        = (l.map Prod.fst).filter fun k => decide (k ∉ ignore) := by
  intro l
  induction l with
  | nil => rfl
  | cons p t ih =>
    by_cases h : p.1 ∈ ignore <;> simp [h, ih]

theorem lookup_filterMap_ignore (ignore : List String)
    (g : String × Handler → CrudRoute) (m : String) (hig : m ∉ ignore) :
    ∀ l : List (String × Handler),
      ((l.filterMap fun p =>
          if p.1 ∈ ignore then none else some (p.1, g p)).lookup m)
        = (l.lookup m).map fun h0 => g (m, h0) := by
  intro l
  induction l with
  | nil => rfl
  | cons p t ih =>
    obtain ⟨k, h0⟩ := p
    by_cases hk : k ∈ ignore
    · have hmk : m ≠ k := fun he => hig (he ▸ hk)
      have hbeq : (m == k) = false := beq_eq_false_iff_ne.mpr hmk
      simp [hk, ih, List.lookup, hbeq]
    · by_cases hmk : m = k
      · subst hmk
        simp [hk, List.lookup]
      · have hbeq : (m == k) = false := beq_eq_false_iff_ne.mpr hmk
        simp [hk, List.lookup, hbeq, ih]

/-! ## Claim theorems -/

/-- C1, counterexample: `api_error` does not always produce a body of the
form of a dict with the single key `errors`: when the description is
itself a dict, that dict is the body unchanged.  The status code is still
`e.code`. -/
theorem api_error_dict_description_counterexample :
    (api_error dictDescErr).1
      = JsonVal.dict [("detail", JsonVal.str "over limit")] ∧
    (api_error dictDescErr).2 = 429 ∧
    ∀ v, (api_error dictDescErr).1 ≠ JsonVal.dict [("errors", v)] := by
  refine ⟨rfl, rfl, ?_⟩
  intro v h
  simp [api_error, dictDescErr] at h

/-- C1, amended: for every exception handled by `api_error`, the status
code of the response is `e.code`; the body is the dict with the single key
`errors` holding the one-element list of the description whenever the
description is not a dict, and the description itself whenever it is a
dict. -/
theorem api_error_body_and_code (e : ApiErr) :
    (api_error e).2 = e.code ∧
    ((∀ entries, e.description ≠ JsonVal.dict entries) →
      (api_error e).1 = JsonVal.dict [("errors", JsonVal.arr [e.description])]) ∧
    (∀ entries, e.description = JsonVal.dict entries →
      (api_error e).1 = e.description) := by
  refine ⟨rfl, ?_, ?_⟩
  · intro h
    cases hd : e.description with
    | dict entries => exact absurd hd (h entries)
    | str s => simp [api_error, hd]
    | num n => simp [api_error, hd]
    | arr l => simp [api_error, hd]
  · intro entries h
    simp [api_error, h]

/-- C1, witness: a string description produces the errors body. -/
theorem api_error_body_and_code_witness :
    (api_error (ApiErr.mk (JsonVal.str "unauthorized") 401)).1
      = JsonVal.dict [("errors", JsonVal.arr [JsonVal.str "unauthorized"])] :=
  (api_error_body_and_code (ApiErr.mk (JsonVal.str "unauthorized") 401)).2.1
    (fun _ h => JsonVal.noConfusion h)

/-- C2: a `crudify` call with ignore list `I` registers an endpoint for a
method `m` of the five crudify methods exactly when `m ∉ I`, and registers
nothing else. -/
theorem crudify_registers_iff_ignored (cf : List (String × Option Handler))
    (url mn : String) (ignore : List String) (np : Dict) :
    (crudify cf url mn ignore np).map Prod.fst
        = crudMethods.filter (fun m => decide (m ∉ ignore)) ∧
    ∀ m, m ∈ (crudify cf url mn ignore np).map Prod.fst ↔
      (m ∈ crudMethods ∧ m ∉ ignore) := by
  have h := filterMap_ignore_map_fst ignore
    (fun p => route_crudify_method url mn p.1 p.2 np) (crudifyFuncsList cf)
  have hkeys : (crudifyFuncsList cf).map Prod.fst = crudMethods := rfl
  constructor
  · unfold crudify
    rw [h, hkeys]
  · intro m
    unfold crudify
    rw [h, hkeys, List.mem_filter]
    simp

/-- C3, counterexample: a decorator whose name is present as a key of the
merged route options does not always receive the stored value as second
argument: when the stored value is `None` (as `crudify` passes for
`needs_permission` when no permission is required) the decorator is called
with the view alone. -/
theorem route_none_option_counterexample :
    (route ["needs_permission"] [] [("needs_permission", PyVal.vnone)]
        (View.base "f") "f").view
      = View.wrap "needs_permission" none (View.base "f") ∧
    (route ["needs_permission"] [] [("needs_permission", PyVal.vnone)]
        (View.base "f") "f").view
      ≠ View.wrap "needs_permission" (some PyVal.vnone) (View.base "f") := by
  decide

/-- C3, amended: for distinct decorator names and a merged options
dictionary with distinct keys, `route` wraps the view with each decorator
in list order; a decorator whose name is a key of the merged options with
a value other than `None` receives that value as its second argument
(an absent key or a `None` value gives a single-argument call); every
decorator-name key is removed from the options before the rule is added,
and the remaining options are merged with the default route options. -/
theorem route_decorator_chain (ds : List String) (defaults opts : Dict)
    (f : View) (fname : String) (hds : ds.Nodup)
    (hmerged : ((route_options defaults opts).map Prod.fst).Nodup) :
    (route ds defaults opts f fname).view
        = ds.foldl (fun g d =>
            View.wrap d (decoratorArg (route_options defaults opts) d) g) f ∧
    (route ds defaults opts f fname).addOptions
        = dictUpdate ((route_options defaults opts).filter
            fun p => decide (p.1 ∉ ds)) default_route_options := by
  have h := applyDecorators_eq ds (route_options defaults opts) f hds hmerged
  constructor
  · rw [show (route ds defaults opts f fname).view
        = (applyDecorators ds (route_options defaults opts) f).1 from rfl, h]
  · rw [show (route ds defaults opts f fname).addOptions
        = dictUpdate (applyDecorators ds (route_options defaults opts) f).2
            default_route_options from rfl, h]

/-- C3, witness: two decorators, one option from the blueprint defaults and
one per-route option, wrapped in list order with their values. -/
theorem route_decorator_chain_witness :
    (route ["login", "needs_permission"] [("login", PyVal.vbool false)]
        [("needs_permission", PyVal.vstr "can_edit")] (View.base "f") "f").view
      = ["login", "needs_permission"].foldl
          (fun g d => View.wrap d (decoratorArg
            (route_options [("login", PyVal.vbool false)]
              [("needs_permission", PyVal.vstr "can_edit")]) d) g)
          (View.base "f") :=
  (route_decorator_chain ["login", "needs_permission"]
    [("login", PyVal.vbool false)] [("needs_permission", PyVal.vstr "can_edit")]
    (View.base "f") "f" (by decide) (by decide)).1

/-- C4: for every non-ignored crudify method `m`, the routed handler is the
blueprint `crudify_funcs` entry for `m` when one holds a function and the
generic default function otherwise (threaded through
`route_crudify_method`, which renames it), and the `Architect` constructor
restricts `crudify_funcs` to exactly the five crudify keys. -/
theorem crudify_handler_selection (cf : List (String × Option Handler))
    (input : List (String × Handler)) (url mn : String)
    (ignore : List String) (np : Dict) (m : String)
    (hm : m ∈ crudMethods) (hig : m ∉ ignore) :
    (crudify cf url mn ignore np).lookup m
        = some (route_crudify_method url mn m
            (((cf.lookup m).join).getD (defaultFunc m)) np) ∧
    (architectCrudifyFuncs input).map Prod.fst = architectCrudifyKeys := by
  constructor
  · simp only [crudMethods, List.mem_cons, List.not_mem_nil, or_false] at hm
    unfold crudify
    rw [lookup_filterMap_ignore ignore _ m hig]
    rcases hm with rfl | rfl | rfl | rfl | rfl <;> rfl
  · rfl

/-- C4, witness: a supplied PUT function is routed for PUT. -/
theorem crudify_handler_selection_witness :
    (crudify [("PUT", some (Handler.mk "custom_put" ["id"]))] "/users" "User"
        ["DELETE"] []).lookup "PUT"
      = some (route_crudify_method "/users" "User" "PUT"
          (Handler.mk "custom_put" ["id"]) []) :=
  (crudify_handler_selection
    [("PUT", some (Handler.mk "custom_put" ["id"]))] [] "/users" "User"
    ["DELETE"] [] "PUT" (by decide) (by decide)).1

/-- C5: for every crudify method `m`, `route_crudify_method` registers the
route under the first space-separated word of `m` (so GET ONE under GET),
renames the handler to the method followed by an underscore and the model
name, and appends the integer id segment to the URL exactly when the
handler has positional arguments. -/
theorem route_crudify_method_shape (url mn m : String) (f : Handler)
    (np : Dict) (hm : m ∈ crudMethods) :
    (route_crudify_method url mn m f np).httpMethods
        = [if m = "GET ONE" then "GET" else m] ∧
    (route_crudify_method url mn m f np).handler.name = m ++ "_" ++ mn ∧
    (route_crudify_method url mn m f np).url
        = (if f.args.isEmpty then url else url ++ "/<int:id>") := by
  refine ⟨?_, rfl, rfl⟩
  simp only [crudMethods, List.mem_cons, List.not_mem_nil, or_false] at hm
  rcases hm with rfl | rfl | rfl | rfl | rfl <;> rfl

/-- C5, witness: GET ONE is registered under HTTP method GET. -/
theorem route_crudify_method_shape_witness :
    (route_crudify_method "/users" "User" "GET ONE" get_one_func []).httpMethods
      = [if "GET ONE" = "GET ONE" then "GET" else "GET ONE"] :=
  (route_crudify_method_shape "/users" "User" "GET ONE" get_one_func []
    (by decide)).1

/-- C6: a view wrapped by the permission decorator raises `PermissionError`
exactly when a permission is required and the current user neither has it
nor is an admin; in every other case the wrapped view forwards the call to
the underlying view. -/
theorem permission_decorator_spec (fname : String) (req : Option String)
    (u : CurrentUser) :
    (permission fname req u = CallOutcome.permissionError ↔
      ∃ p, req = some p ∧ u.permissions.contains p = false ∧
        u.is_admin = false) ∧
    (permission fname req u ≠ CallOutcome.permissionError →
      permission fname req u = CallOutcome.forwarded fname) := by
  cases req with
  | none =>
    constructor
    · constructor
      · intro h
        exact absurd h (by simp [permission])
      · rintro ⟨p, hp, _⟩
        exact absurd hp (by simp)
    · intro _
      rfl
  | some p =>
    by_cases h : (u.permissions.contains p || u.is_admin) = true
    · have hfor : permission fname (some p) u = CallOutcome.forwarded fname := by
        show (if (u.permissions.contains p || u.is_admin) = true then
            CallOutcome.forwarded fname else CallOutcome.permissionError)
          = CallOutcome.forwarded fname
        rw [if_pos h]
      constructor
      · constructor
        · intro habs
          rw [hfor] at habs
          exact absurd habs (by simp)
        · rintro ⟨p1, hp1, hc, ha⟩
          cases hp1
          rcases Bool.or_eq_true_iff.mp h with h1 | h1
          · rw [hc] at h1
            exact absurd h1 (by simp)
          · rw [ha] at h1
            exact absurd h1 (by simp)
      · intro _
        exact hfor
    · have hf : (u.permissions.contains p || u.is_admin) = false := by
        cases hb : (u.permissions.contains p || u.is_admin)
        · rfl
        · exact absurd hb h
      have herr : permission fname (some p) u = CallOutcome.permissionError := by
        show (if (u.permissions.contains p || u.is_admin) = true then
            CallOutcome.forwarded fname else CallOutcome.permissionError)
          = CallOutcome.permissionError
        rw [if_neg (fun hc => h hc)]
      have hcf : u.permissions.contains p = false := (Bool.or_eq_false_iff.mp hf).1
      have haf : u.is_admin = false := (Bool.or_eq_false_iff.mp hf).2
      constructor
      · constructor
        · intro _
          exact ⟨p, rfl, hcf, haf⟩
        · intro _
          exact herr
      · intro habs
        exact absurd herr habs

/-- C6, witness: a non-admin user without the required permission gets a
`PermissionError`. -/
theorem permission_decorator_spec_witness :
    permission "show_user" (some "can_edit") (CurrentUser.mk false ["can_view"])
      = CallOutcome.permissionError :=
  (permission_decorator_spec "show_user" (some "can_edit")
    (CurrentUser.mk false ["can_view"])).1.mpr ⟨"can_edit", rfl, by decide, rfl⟩

/-- C7: constructing an `Architect` without `before_request_funcs` installs
`check_rate_limit` as the only before-request function, and every
blueprint created by `sub_blueprint` registers it. -/
theorem sub_blueprint_installs_rate_limit (v : Nat) (ds : List String)
    (cfin : List (String × Handler)) (ul : Option Loader) (uc : Option Nat)
    (afr : List String) (a : ArchitectState) (nm : String) (kwargs : Dict)
    (h : architectInit v (some ds) cfin ul uc [] afr = Except.ok a) :
    (sub_blueprint a nm kwargs).before_request_funcs = [check_rate_limit] ∧
    check_rate_limit ∈ (sub_blueprint a nm kwargs).before_request_funcs := by
  have hbr : a.before_request_funcs = [check_rate_limit] := by
    unfold architectInit at h
    cases hl : init_login_manager ul uc with
    | error e =>
      rw [hl] at h
      exact absurd h (by simp)
    | ok lm =>
      rw [hl] at h
      injection h with h1
      rw [← h1]
      rfl
  constructor
  · show a.before_request_funcs = [check_rate_limit]
    exact hbr
  · show check_rate_limit ∈ a.before_request_funcs
    rw [hbr]
    exact List.mem_singleton.mpr rfl

/-- C7, witness: a concrete architect built with the empty before-request
list hands `check_rate_limit` to its sub-blueprints. -/
theorem sub_blueprint_installs_rate_limit_witness :
    (sub_blueprint (ArchitectState.mk 1 [] (architectCrudifyFuncs [])
        (LoginManager.mk (some (RequestLoader.requestUserWrapper (Loader.custom 0))))
        [check_rate_limit] []) "users" []).before_request_funcs
      = [check_rate_limit] :=
  (sub_blueprint_installs_rate_limit 1 [] [] (some (Loader.custom 0)) none []
    (ArchitectState.mk 1 [] (architectCrudifyFuncs [])
      (LoginManager.mk (some (RequestLoader.requestUserWrapper (Loader.custom 0))))
      [check_rate_limit] []) "users" [] rfl).1

/-- C8: every rule added through `route` reaches `add_url_rule` with
`strict_slashes` set to false, whatever the caller passed. -/
theorem route_strict_slashes_false (ds : List String) (defaults opts : Dict)
    (f : View) (fname : String) :
    dictGet (route ds defaults opts f fname).addOptions "strict_slashes"
      = some (PyVal.vbool false) := by
  rw [show (route ds defaults opts f fname).addOptions
      = dictUpdate (applyDecorators ds (route_options defaults opts) f).2
          default_route_options from rfl]
  exact dictGet_set_self _ _ _

/-- C9: a sequence of `route` registrations never changes the dictionary
the blueprint `default_options` reference points to, because the merge
happens on a deep copy; and in the merged options the per-route keys take
precedence over the defaults. -/
theorem route_preserves_default_options (regs : List (Dict × View))
    (s : Store) (defRef : Nat) (ds : List String)
    (h : defRef < s.dicts.length) :
    (routeSeqH defRef ds regs s).read defRef = s.read defRef ∧
    ∀ (defaults opts : Dict) (k : String), (opts.map Prod.fst).Nodup →
      dictGet (route_options defaults opts) k
        = ((dictGet opts k).elim (dictGet defaults k) some) := by
  constructor
  · exact routeSeqH_read regs s defRef ds h
  · intro defaults opts k hk
    rw [route_options, dictGet_update defaults opts k hk]
    cases dictGet opts k <;> rfl

/-- C9, witness: one registration that pops the only default key leaves
the stored default options dictionary intact. -/
theorem route_preserves_default_options_witness :
    (routeSeqH 0 ["login"] [([("login", PyVal.vnone)], View.base "f")]
        (Store.mk [[("login", PyVal.vbool false)]])).read 0
      = (Store.mk [[("login", PyVal.vbool false)]]).read 0 :=
  (route_preserves_default_options [([("login", PyVal.vnone)], View.base "f")]
    (Store.mk [[("login", PyVal.vbool false)]]) 0 ["login"] (by decide)).1

/-- C10, counterexample: when neither `user_loader` nor `user_class` is
given the constructor does raise, but not before other state is set up:
nine attributes, among them `crudify_funcs`, are assigned first. -/
theorem architect_init_state_counterexample :
    architectInit 1 (some []) [] none none [] []
        = Except.error "Define either the user_loader or user_class kwarg." ∧
    (architectInitAssigned (some []) none none).2
        = some "Define either the user_loader or user_class kwarg." ∧
    "crudify_funcs" ∈ (architectInitAssigned (some []) none none).1 ∧
    (architectInitAssigned (some []) none none).1 ≠ [] := by
  refine ⟨rfl, rfl, by decide, by decide⟩

/-- C10, amended: constructing an `Architect` with neither `user_loader`
nor `user_class` raises after the first nine attributes are assigned but
before the login manager, the encoder and the request-function lists are
set; with at least one of the two provided (and a decorator list),
construction succeeds and a request loader is installed on the login
manager. -/
theorem architect_init_check_order (v : Nat) (ds : List String)
    (cfin : List (String × Handler)) (ul : Option Loader) (uc : Option Nat)
    (bfr afr : List String) :
    (ul = none → uc = none →
      architectInit v (some ds) cfin ul uc bfr afr
          = Except.error "Define either the user_loader or user_class kwarg." ∧
      (architectInitAssigned (some ds) ul uc).1
          = ["blueprints", "version", "_prefix", "decorators", "base_dir",
             "template_dir", "name", "response_blueprint", "crudify_funcs"] ∧
      (architectInitAssigned (some ds) ul uc).2.isSome = true) ∧
    ((ul.isSome = true ∨ uc.isSome = true) →
      ∃ a, architectInit v (some ds) cfin ul uc bfr afr = Except.ok a ∧
        a.login_manager.requestLoaderHook.isSome = true) := by
  constructor
  · rintro rfl rfl
    exact ⟨rfl, rfl, rfl⟩
  · intro h
    cases ul with
    | some l =>
      refine ⟨{ version := v, decorators := ds,
                crudify_funcs := architectCrudifyFuncs cfin,
                login_manager := ⟨some (RequestLoader.requestUserWrapper l)⟩,
                before_request_funcs :=
                  if bfr.isEmpty then [check_rate_limit] else bfr,
                after_request_funcs := afr }, ?_, rfl⟩
      unfold architectInit init_login_manager
      simp
    | none =>
      cases uc with
      | none =>
        rcases h with h1 | h1 <;> simp at h1
      | some c =>
        refine ⟨{ version := v, decorators := ds,
                  crudify_funcs := architectCrudifyFuncs cfin,
                  login_manager := ⟨some (RequestLoader.requestUserWrapper
                    (Loader.userFromRedisToken c))⟩,
                  before_request_funcs :=
                    if bfr.isEmpty then [check_rate_limit] else bfr,
                  after_request_funcs := afr }, ?_, rfl⟩
        unfold architectInit init_login_manager
        simp

/-- C10, witness: a construction with both loader arguments missing raises,
and one with a user loader succeeds and installs a request loader. -/
theorem architect_init_check_order_witness :
    architectInit 1 (some []) [] none none [] []
        = Except.error "Define either the user_loader or user_class kwarg." ∧
    ∃ a, architectInit 2 (some []) [] (some (Loader.custom 7)) none [] []
        = Except.ok a ∧ a.login_manager.requestLoaderHook.isSome = true :=
  ⟨((architect_init_check_order 1 [] [] none none [] []).1 rfl rfl).1,
   (architect_init_check_order 2 [] [] (some (Loader.custom 7)) none [] []).2
     (Or.inl rfl)⟩

end Powernap
